import Mathlib

/-!
Verification development for the toolkit-tags repository.

The repository has two Python pipelines:
* get_node_ids.py - the identifier resolver: reads paths.csv, fetches each
  page, extracts the data-history-node-id attribute from the first article
  tag that carries it, and rewrites the table with node-id and edit-link
  columns.
* prepare_data.py - the tag classifier: reads a Sanity article export and
  the path table, classifies each article tag into a Drupal field via a
  static label-to-field map, translates select labels, and emits one record
  per matched article with non-empty fields.

The embedding below translates the relevant functions directly from the
source.  Python strings become String, Python dicts become insertion-ordered
association lists (so that key order and override semantics are preserved),
Python None becomes Option, and the HTTP transport plus HTML tokenizer are
an oracle producing the stream of start tags the parser would see.
-/

/-! ## String helpers mirroring the Python methods used by the code -/

/-- Whitespace test used by the strip model. -/
def isSpc (c : Char) : Bool := c.isWhitespace

/-- Strip whitespace from both ends of a character list. -/
def stripList (l : List Char) : List Char :=
  ((l.dropWhile isSpc).reverse.dropWhile isSpc).reverse

/-- Model of the Python str.strip() method (no arguments): remove leading and
trailing whitespace. -/
def pyStrip (s : String) : String := String.mk (stripList s.data)

/-- Model of Python str.startswith(p). -/
def startswith (s p : String) : Bool := p.data.isPrefixOf s.data

/-- Model of Python str.lower() (ASCII case folding suffices for the tag
names compared by the code). -/
def lowerStr (s : String) : String := String.mk (s.data.map Char.toLower)

/-- Model of Python s.lstrip of the slash character: drop every leading
slash. -/
def lstripSlash (s : String) : String :=
  String.mk (s.data.dropWhile (fun c => c = '/'))

/-- Model of Python s.rstrip of the slash character: drop every trailing
slash. -/
def rstripSlash (s : String) : String :=
  String.mk ((s.data.reverse.dropWhile (fun c => c = '/')).reverse)

/-! ## get_node_ids.py: the article node-id parser

A start tag as delivered by the HTML tokenizer: a tag name and an attribute
list; an attribute value is Option String because a valueless attribute is
reported as None by the tokenizer. -/

structure StartTag where
  name : String
  attrs : List (String × Option String)
deriving DecidableEq

/-- Model of building attr_map as a dict comprehension over the attribute
list (a later duplicate key overrides an earlier one) followed by
attr_map.get(k): the result is None both when the key is absent and when the
key maps to a valueless attribute, exactly the two cases the calling code
treats alike. -/
def attrGet (attrs : List (String × Option String)) (k : String) : Option String :=
  match attrs.reverse.find? (fun p => p.1 = k) with
  | some p => p.2
  | none => none

/-- One step of ArticleNodeIdParser.handle_starttag from get_node_ids.py:
the state is the stored node_id (None initially); a tag is ignored once a
node id is stored, ignored unless its lowercased name is article, and the
data-history-node-id value is stored stripped when it is truthy. -/
def handle_starttag (st : Option String) (t : StartTag) : Option String :=
  if st.isSome then st
  else if lowerStr t.name ≠ "article" then st
  else
    match attrGet t.attrs "data-history-node-id" with
    | none => st
    | some v => if v ≠ "" then some (pyStrip v) else st

/-- Feeding the whole tag stream through the parser, as
fetch_node_id does via parser.feed(html). -/
def parseTags (ts : List StartTag) : Option String :=
  ts.foldl handle_starttag none

/-- The value a single tag would contribute when the parser has not stored
anything yet. -/
def articleHit (t : StartTag) : Option String :=
  if lowerStr t.name = "article" then
    match attrGet t.attrs "data-history-node-id" with
    | none => none
    | some v => if v ≠ "" then some (pyStrip v) else none
  else none

/-! ## get_node_ids.py: URL handling and the main row loop -/

/-- Model of normalize_url from get_node_ids.py. -/
def normalize_url (base_url drupal_path : String) : String :=
  if startswith drupal_path "http://" || startswith drupal_path "https://" then
    drupal_path
  else
    rstripSlash base_url ++ "/" ++ lstripSlash drupal_path

/-- The edit link written next to a resolved node id. -/
def editLink (base_url node_id : String) : String :=
  rstripSlash base_url ++ "/node/" ++ node_id ++ "/edit"

/-- Command-line options of get_node_ids.py that affect row processing. -/
structure Args where
  baseUrl : String
  skipExisting : Bool
deriving DecidableEq

/-- First index of a key in a header row, as Python list.index finds it
(None when absent). -/
def indexOfFirst : List String → String → Option Nat
  | [], _ => none
  | a :: t, k => if a = k then some 0 else (indexOfFirst t k).map (· + 1)

/-- Model of the header handling in main: reuse the column when the name is
present, otherwise append it at the end. -/
def ensureCol (h : List String) (k : String) : List String × Nat :=
  match indexOfFirst h k with
  | some i => (h, i)
  | none => (h ++ [k], h.length)

/-- Both column lookups of main, in order: node-id first, then edit-link. -/
def ensureCols (h : List String) : List String × Nat × Nat :=
  let p1 := ensureCol h "node-id"
  let p2 := ensureCol p1.1 "edit-link"
  (p2.1, p1.2, p2.2)

/-- Model of the padding loop: while len(row) <= max(nIdx, eIdx) the code
appends empty cells, so the row ends at length max(len(row), n). -/
def padTo (row : List String) (n : Nat) : List String :=
  row ++ List.replicate (n - row.length) ""

/-- The network and tokenizer oracle: fetching a URL either fails with a
transport error message or yields the stream of start tags of the fetched
document. -/
def FetchOracle := String → Except String (List StartTag)

/-- Model of one iteration of the row loop in main of get_node_ids.py,
returning the updated row together with the progress message printed for it
(without the bracketed index prefix, which main adds). -/
def processRow (args : Args) (ft : FetchOracle) (nIdx eIdx : Nat)
    (row : List String) : List String × String :=
  let p := padTo row (max nIdx eIdx + 1)
  let path := pyStrip (p.getD 0 "")
  let existing := pyStrip (p.getD nIdx "")
  if args.skipExisting = true ∧ existing ≠ "" then
    (p, "skip (already has node-id): " ++ path)
  else if path = "" then
    (p, "empty drupal path, leaving blank")
  else
    match ft (normalize_url args.baseUrl path) with
    | Except.error exc =>
        ((p.set nIdx "").set eIdx "", path ++ " -> error: " ++ exc)
    | Except.ok tags =>
        match parseTags tags with
        | some nid =>
            if nid ≠ "" then
              ((p.set nIdx nid).set eIdx (editLink args.baseUrl nid),
               path ++ " -> " ++ nid)
            else
              ((p.set nIdx "").set eIdx "", path ++ " -> not found")
        | none =>
            ((p.set nIdx "").set eIdx "", path ++ " -> not found")

/-- Model of main of get_node_ids.py over an in-memory table: none models
the fatal empty-table exit; otherwise the updated table (header plus one
updated row per data row) together with the per-row progress lines. -/
def resolverRun (args : Args) (ft : FetchOracle) (rows : List (List String)) :
    Option (List (List String) × List String) :=
  match rows with
  | [] => none
  | header :: data =>
    let he := ensureCols header
    some (he.1 :: data.map (fun r => (processRow args ft he.2.1 he.2.2 r).1),
          data.enum.map (fun q =>
            "[" ++ toString (q.1 + 1) ++ "/" ++ toString data.length ++ "] " ++
              (processRow args ft he.2.1 he.2.2 q.2).2))

/-! ## prepare_data.py: static configuration tables -/

/-- The category groupings of prepare_data.py (its module-level category
map), in source order: each Drupal field name with the Sanity labels of the
category it receives. -/
def CATEGORY_MAP : List (String × List String) :=
  [("field_topics",
    ["Eating and body image", "Relationships", "Panic attacks",
     "Natural disasters", "Stress", "Self-harm", "Suicide", "Psychosis",
     "Grief", "Gambling", "Domestic and family violence", "Financial stress",
     "Trauma", "Loneliness", "Depression", "Substance Misuse", "Anxiety"]),
   ("field_media_type", ["Read", "Watch", "Listen"]),
   ("field_audience", ["Carer Stories", "For Others Page", "Friends Family"]),
   ("field_quiz_question_2", ["Long-term help", "Short-term help"]),
   ("field_timeframe", ["Long term", "Right now"]),
   ("field_support_toolkit_type",
    ["Technique or Strategy", "Support Service", "Support Guide",
     "Real Story", "Tool or App"]),
   ("field_tools_apps_type", ["Online Program", "Book", "Website", "App"]),
   ("field_quiz_question_1", ["Other topics"]),
   ("field_quiz_understanding", ["Understanding"]),
   ("field_cost", ["Low cost", "Free"]),
   ("field_access_options",
    ["Online", "Phone", "Counselling", "Text", "Forum", "Peer Support",
     "Crisis", "In Person"]),
   ("field_state",
    ["National", "NT", "ACT", "SA", "TAS", "VIC", "WA", "QLD", "NSW"]),
   ("field_quiz_priority", ["Priority 3", "Priority 2", "Priority 1"])]

/-- The flat tag-label-to-field dict, built exactly as the module-level loop
of prepare_data.py builds it: iterate the categories in order and add each
label unless an earlier category already claimed it. -/
def TAG_LABEL_TO_FIELD : List (String × String) :=
  CATEGORY_MAP.foldl
    (fun m p =>
      p.2.foldl
        (fun m lab => if m.any (fun q => q.1 = lab) then m else m ++ [(lab, p.1)])
        m)
    []

/-- Tags that exist in Sanity but have no Drupal equivalent; ignored
silently. -/
def IGNORED_TAGS : List String := ["Audio", "Graphic", "Video"]

/-- The Sanity-to-Drupal label translation dict of prepare_data.py. -/
def LABEL_TRANSLATION : List (String × String) :=
  [("Technique or Strategy", "Techniques & Guides"),
   ("Tool or App", "Tools & Apps"),
   ("Right now", "Help right now"),
   ("Long term", "Long term help"),
   ("Short-term help", "Try something to help me manage now"),
   ("Long-term help", "Strategies to help me long term"),
   ("Other topics", "I\x27m feeling something else"),
   ("For Others Page", "For Others"),
   ("Friends Family", "For Friends & Family"),
   ("Grief", "Grief & loss"),
   ("Gambling", "Problem gambling"),
   ("Online", "Online Chat")]

/-- Lookup in an insertion-ordered association list whose keys are unique,
which is how every dict in the program is built: this is dict.get(k)
returning None when absent. -/
def alLookup : List (String × String) → String → Option String
  | [], _ => none
  | p :: t, k => if p.1 = k then some p.2 else alLookup t k

/-- Model of translate_label from prepare_data.py:
LABEL_TRANSLATION.get(label, label). -/
def translate_label (label : String) : String :=
  (alLookup LABEL_TRANSLATION label).getD label

/-! ## prepare_data.py: the path mapping -/

/-- Dict assignment m[k] = v on an insertion-ordered association list:
override in place when the key exists, append otherwise. -/
def dictInsert (m : List (String × String)) (k v : String) :
    List (String × String) :=
  if m.any (fun p => p.1 = k) then
    m.map (fun p => if p.1 = k then (k, v) else p)
  else m ++ [(k, v)]

/-- Model of load_path_mapping from prepare_data.py over the parsed rows of
paths.csv, each row giving its sanity-path and drupal-path cells: strip both
cells, skip the row when the sanity path starts with http, otherwise store
the pair. -/
def load_path_mapping (rows : List (String × String)) : List (String × String) :=
  rows.foldl
    (fun m r =>
      let sanity := pyStrip r.1
      let drupal := pyStrip r.2
      if startswith sanity "http" then m else dictInsert m sanity drupal)
    []

/-! ## prepare_data.py: articles and classification -/

/-- One element of the tags array of an article: a dict whose label key may
be absent or None (both modeled as none). -/
structure STag where
  label : Option String
deriving DecidableEq

/-- One element of the feelings array: a dict with an optional label, a
plain string, or any other value (skipped by the code). -/
inductive Feeling where
  | obj : Option String → Feeling
  | str : String → Feeling
  | other : Feeling
deriving DecidableEq

/-- An article of the Sanity export, with the keys prepare_data.py reads.
A missing key and a key mapped to None or an absent list are modeled
as none. -/
structure Article where
  path : String
  title : Option String
  nameKey : Option String
  tags : Option (List STag)
  feelings : Option (List Feeling)
deriving DecidableEq

/-- fields.setdefault(field, []).append(lab) on an insertion-ordered dict of
lists: append to the list of an existing key, or add the key at the end with
a singleton list. -/
def fieldsAppend (fs : List (String × List String)) (k lab : String) :
    List (String × List String) :=
  if fs.any (fun p => p.1 = k) then
    fs.map (fun p => if p.1 = k then (p.1, p.2 ++ [lab]) else p)
  else fs ++ [(k, [lab])]

/-- One iteration of the tags loop of classify_article: the state is the
fields dict together with the unmapped_tags list. -/
def tagStep (acc : List (String × List String) × List String) (t : STag) :
    List (String × List String) × List String :=
  let label := pyStrip (t.label.getD "")
  if label = "" then acc
  else
    match alLookup TAG_LABEL_TO_FIELD label with
    | some field => (fieldsAppend acc.1 field (translate_label label), acc.2)
    | none =>
        if IGNORED_TAGS.contains label then acc
        else (acc.1, acc.2 ++ [label])

/-- One iteration of the feelings loop of classify_article: dicts expose an
optional label, plain strings are used directly, anything else is skipped;
non-empty stripped labels go to field_feelings verbatim. -/
def feelingStep (fs : List (String × List String)) (f : Feeling) :
    List (String × List String) :=
  match f with
  | Feeling.obj lab =>
      let l := pyStrip (lab.getD "")
      if l = "" then fs else fieldsAppend fs "field_feelings" l
  | Feeling.str s =>
      let l := pyStrip s
      if l = "" then fs else fieldsAppend fs "field_feelings" l
  | Feeling.other => fs

/-- Model of classify_article from prepare_data.py: the resulting fields
dict together with the unmapped_tags list collected by the tags loop. -/
def classify_article (a : Article) :
    List (String × List String) × List String :=
  let tr := (a.tags.getD []).foldl tagStep ([], [])
  ((a.feelings.getD []).foldl feelingStep tr.1, tr.2)

/-- The warning line printed by classify_article when unmapped_tags is
non-empty; the article is identified by its title or a question-mark
placeholder when the key is missing. -/
def unmappedWarning (a : Article) (unmapped : List String) : String :=
  "  WARNING: Unmapped tags for \x27" ++ (a.title.getD "?") ++ "\x27: " ++
    String.intercalate ", " unmapped

/-- The warning lines classify_article prints for one article: one line when
it has unmapped tags, none otherwise. -/
def classifyWarnings (a : Article) : List String :=
  let u := (classify_article a).2
  if u = [] then [] else [unmappedWarning a u]

/-! ## prepare_data.py: the main article loop -/

/-- One record of the page_fields.json output. -/
structure PageFields where
  drupal_path : String
  sanity_path : String
  title : String
  fields : List (String × List String)
deriving DecidableEq

/-- Model of the article loop of main in prepare_data.py: returns the
results list, the matched count, and the unmatched_paths list.  The lookup
path_map.get treats a missing key and an empty drupal path alike because the
code tests it with truthiness. -/
def processArticles (pm : List (String × String)) :
    List Article → List PageFields × Nat × List String
  | [] => ([], 0, [])
  | a :: rest =>
    let acc := processArticles pm rest
    let sanity_path := lstripSlash a.path
    let drupal_path := (alLookup pm sanity_path).getD ""
    if drupal_path = "" then
      (acc.1, acc.2.1, sanity_path :: acc.2.2)
    else
      let fields := (classify_article a).1
      if fields = [] then (acc.1, acc.2.1 + 1, acc.2.2)
      else
        ({ drupal_path := drupal_path
           sanity_path := sanity_path
           title := if (a.title.getD "") ≠ "" then a.title.getD ""
                    else if (a.nameKey.getD "") ≠ "" then a.nameKey.getD ""
                    else ""
           fields := fields } :: acc.1,
         acc.2.1 + 1, acc.2.2)

/-- Definition following the words of the spec, for comparison with the
source predicate used by load_path_mapping: an entry is an absolute URL when
it carries an explicit scheme, the same test normalize_url applies. -/
def isAbsoluteUrlSpec (s : String) : Bool :=
  startswith s "http://" || startswith s "https://"

/-! ## Lemmas about stripping -/

lemma head?_dropWhile_false (p : Char → Bool) :
    ∀ (l : List Char) (c : Char), (l.dropWhile p).head? = some c → p c = false := by
  intro l
  induction l with
  | nil => intro c h; simp [List.dropWhile] at h
  | cons a t ih =>
    intro c h
    by_cases hp : p a
    · rw [List.dropWhile_cons_of_pos hp] at h
      exact ih c h
    · rw [List.dropWhile_cons_of_neg hp] at h
      simp at h
      subst h
      simpa using hp

lemma getLast?_dropWhile (p : Char → Bool) :
    ∀ (l : List Char), l.dropWhile p ≠ [] → (l.dropWhile p).getLast? = l.getLast? := by
  intro l
  induction l with
  | nil => intro h; simp [List.dropWhile] at h
  | cons a t ih =>
    intro h
    by_cases hp : p a
    · rw [List.dropWhile_cons_of_pos hp] at h ⊢
      have ht : t ≠ [] := by
        intro he; rw [he] at h; simp [List.dropWhile] at h
      rcases t with _ | ⟨b, t2⟩
      · exact absurd rfl ht
      · rw [ih h, List.getLast?_cons_cons]
    · rw [List.dropWhile_cons_of_neg hp]

lemma dropWhile_eq_self_of_head (p : Char → Bool) (l : List Char)
    (h : ∀ c, l.head? = some c → p c = false) : l.dropWhile p = l := by
  rcases l with _ | ⟨a, t⟩
  · simp [List.dropWhile]
  · have := h a (by simp)
    rw [List.dropWhile_cons_of_neg (by simp [this])]

lemma stripList_head?_false (l : List Char) (c : Char)
    (h : (stripList l).head? = some c) : isSpc c = false := by
  unfold stripList at h
  rw [List.head?_reverse] at h
  have hne : (l.dropWhile isSpc).reverse.dropWhile isSpc ≠ [] := by
    intro he; rw [he] at h; simp at h
  rw [getLast?_dropWhile _ _ hne, List.getLast?_reverse] at h
  exact head?_dropWhile_false isSpc l c h

lemma stripList_getLast?_false (l : List Char) (c : Char)
    (h : (stripList l).getLast? = some c) : isSpc c = false := by
  unfold stripList at h
  rw [List.getLast?_reverse] at h
  exact head?_dropWhile_false isSpc _ c h

lemma stripList_idem (l : List Char) : stripList (stripList l) = stripList l := by
  have h1 : (stripList l).dropWhile isSpc = stripList l :=
    dropWhile_eq_self_of_head _ _ (fun c hc => stripList_head?_false l c hc)
  have h2 : (stripList l).reverse.dropWhile isSpc = (stripList l).reverse :=
    dropWhile_eq_self_of_head _ _
      (fun c hc => stripList_getLast?_false l c (by rwa [List.head?_reverse] at hc))
  conv_lhs => rw [stripList, h1, h2, List.reverse_reverse]

lemma pyStrip_idem (s : String) : pyStrip (pyStrip s) = pyStrip s := by
  simp [pyStrip, stripList_idem]

/-! ## Lemmas about the parser -/

lemma handle_starttag_some (s : String) (t : StartTag) :
    handle_starttag (some s) t = some s := by
  simp [handle_starttag]

lemma foldl_handle_some (ts : List StartTag) (s : String) :
    ts.foldl handle_starttag (some s) = some s := by
  induction ts with
  | nil => rfl
  | cons t ts ih => rw [List.foldl_cons, handle_starttag_some]; exact ih

lemma handle_starttag_none (t : StartTag) :
    handle_starttag none t = articleHit t := by
  by_cases h : lowerStr t.name = "article" <;>
    [skip; simp [handle_starttag, articleHit, h]]
  cases hA : attrGet t.attrs "data-history-node-id" <;>
    simp [handle_starttag, articleHit, h, hA]

lemma parseTags_cons (t : StartTag) (ts : List StartTag) :
    parseTags (t :: ts) =
      match articleHit t with
      | some s => some s
      | none => parseTags ts := by
  unfold parseTags
  rw [List.foldl_cons, handle_starttag_none]
  cases articleHit t with
  | some s => exact foldl_handle_some ts s
  | none => rfl

/-! ## Claim C3 -/

/-- Claim C3 as frozen is false on the code: an article start tag that does
not carry a truthy data-history-node-id attribute does not stop the scan, so
a later article tag is consulted.  Here the first article tag has no
attributes, yet extraction returns the identifier of the second article
tag instead of reporting not found. -/
theorem spec_c3_counterexample :
    attrGet ([] : List (String × Option String)) "data-history-node-id" = none ∧
    parseTags
      [{ name := "article", attrs := [] },
       { name := "article", attrs := [("data-history-node-id", some "42")] }] =
      some "42" := by
  constructor <;> rfl

/-- Claim C3, amended: extraction scans start tags in document order and the
parser result is determined by the first tag that is both named article
(case-insensitively) and carries the data-history-node-id attribute with a
truthy (non-empty, untrimmed) value; such a tag stores the trimmed value and
stops the scan; article tags without such an attribute value do not stop the
scan; when no tag qualifies the result is not found. -/
theorem spec_c3_amended :
    (∀ ts : List StartTag, parseTags ts = List.findSome? articleHit ts) ∧
    (∀ (t : StartTag) (v : String),
      articleHit t = some v ↔
        lowerStr t.name = "article" ∧
        ∃ raw, attrGet t.attrs "data-history-node-id" = some raw ∧
          raw ≠ "" ∧ v = pyStrip raw) := by
  constructor
  · intro ts
    induction ts with
    | nil => rfl
    | cons t ts ih =>
      rw [parseTags_cons, List.findSome?_cons]
      cases articleHit t with
      | some s => rfl
      | none => exact ih
  · intro t v
    constructor
    · intro h
      unfold articleHit at h
      by_cases hn : lowerStr t.name = "article"
      · rw [if_pos hn] at h
        cases hA : attrGet t.attrs "data-history-node-id" with
        | none => simp [hA] at h
        | some raw =>
          by_cases hr : raw = ""
          · simp [hA, hr] at h
          · simp only [hA, ne_eq, hr, not_false_eq_true, if_true,
              Option.some_inj] at h
            exact ⟨hn, raw, rfl, hr, h.symm⟩
      · rw [if_neg hn] at h; exact absurd h (by simp)
    · rintro ⟨hn, raw, hA, hraw, rfl⟩
      simp [articleHit, hn, hA, hraw]

/-! ## Claim C9 -/

/-- Claim C9: when the first article start tag carries a
data-history-node-id value that is non-empty but whitespace-only, the parser
stores the empty string and stops, so any later tags (in particular article
tags carrying a real identifier) are never consulted; the resolver row then
takes the not-found branch and writes empty strings to both the node-id and
edit-link columns. -/
theorem spec_c9 (v : String) (rest : List StartTag)
    (hv : v ≠ "") (hstrip : pyStrip v = "") :
    parseTags
      ({ name := "article", attrs := [("data-history-node-id", some v)] } :: rest) =
      some "" ∧
    ∀ (args : Args) (ft : FetchOracle) (nIdx eIdx : Nat) (row : List String),
      ¬(args.skipExisting = true ∧
          pyStrip ((padTo row (max nIdx eIdx + 1)).getD nIdx "") ≠ "") →
      pyStrip ((padTo row (max nIdx eIdx + 1)).getD 0 "") ≠ "" →
      ft (normalize_url args.baseUrl
            (pyStrip ((padTo row (max nIdx eIdx + 1)).getD 0 ""))) =
        Except.ok
          ({ name := "article",
             attrs := [("data-history-node-id", some v)] } :: rest) →
      (processRow args ft nIdx eIdx row).1 =
        ((padTo row (max nIdx eIdx + 1)).set nIdx "").set eIdx "" := by
  have hp : parseTags
      ({ name := "article", attrs := [("data-history-node-id", some v)] } :: rest) =
      some "" := by
    rw [parseTags_cons]
    have hhit : articleHit
        { name := "article", attrs := [("data-history-node-id", some v)] } =
        some "" := by
      unfold articleHit
      rw [if_pos (show lowerStr "article" = "article" by decide)]
      show (if v ≠ "" then some (pyStrip v) else none) = some ""
      rw [if_pos hv, hstrip]
    rw [hhit]
  refine ⟨hp, ?_⟩
  intro args ft nIdx eIdx row hskip hpath hft
  unfold processRow
  rw [if_neg hskip, if_neg (by simpa using hpath), hft]
  simp only [hp]
  rfl

/-- Fetch oracle for the C9 witness: the fetched page opens with an article
tag whose node id value is a single space, followed by an article tag with a
real identifier. -/
def c9Fetch : FetchOracle := fun u =>
  if u = "b/x" then
    Except.ok
      [{ name := "article", attrs := [("data-history-node-id", some " ")] },
       { name := "article", attrs := [("data-history-node-id", some "42")] }]
  else Except.ok []

/-- Witness for claim C9 at the concrete whitespace value. -/
theorem spec_c9_witness :
    ((" " : String) ≠ "" ∧ pyStrip " " = "") ∧
    parseTags
      [{ name := "article", attrs := [("data-history-node-id", some " ")] },
       { name := "article", attrs := [("data-history-node-id", some "42")] }] =
      some "" ∧
    (processRow { baseUrl := "b", skipExisting := false } c9Fetch 1 2 ["x"]).1 =
      ((padTo ["x"] (max 1 2 + 1)).set 1 "").set 2 "" :=
  ⟨⟨by decide, by decide⟩,
   (spec_c9 " " [{ name := "article", attrs := [("data-history-node-id", some "42")] }]
      (by decide) (by decide)).1,
   (spec_c9 " " [{ name := "article", attrs := [("data-history-node-id", some "42")] }]
      (by decide) (by decide)).2
     { baseUrl := "b", skipExisting := false } c9Fetch 1 2 ["x"]
     (by decide) (by decide) rfl⟩

/-! ## Claim C1 -/

set_option maxRecDepth 20000 in
/-- Every label claimed by the flat map belongs to exactly one category
group, and its field is that group. -/
lemma tag_label_unique :
    ∀ p ∈ TAG_LABEL_TO_FIELD,
      (CATEGORY_MAP.filter (fun c => c.2.contains p.1)).map Prod.fst = [p.2] := by
  decide

/-- A successful lookup comes from a pair of the association list. -/
lemma alLookup_mem (m : List (String × String)) (k v : String)
    (h : alLookup m k = some v) : (k, v) ∈ m := by
  induction m with
  | nil => simp [alLookup] at h
  | cons p t ih =>
    by_cases hp : p.1 = k
    · rw [alLookup, if_pos hp] at h
      have : p = (k, v) := by
        rcases p with ⟨p1, p2⟩
        simp at hp h
        rw [hp, h]
      rw [← this]
      exact List.mem_cons_self p t
    · rw [alLookup, if_neg hp] at h
      exact List.mem_cons_of_mem _ (ih h)

/-- Claim C1: for a tag whose stripped label is non-empty and is a key of
the static label-to-field map, the tags loop of classify_article appends
exactly one entry to the field of the unique category group containing the
source label; the appended entry is the configured translation of the label,
or the label itself when no translation is configured; both the field lookup
and the uniqueness statement key on the untranslated source label. -/
theorem spec_c1 (fields : List (String × List String)) (unmapped : List String)
    (t : STag) (label field : String)
    (hl : pyStrip (t.label.getD "") = label) (hne : label ≠ "")
    (hf : alLookup TAG_LABEL_TO_FIELD label = some field) :
    tagStep (fields, unmapped) t =
      (fieldsAppend fields field ((alLookup LABEL_TRANSLATION label).getD label),
       unmapped) ∧
    (CATEGORY_MAP.filter (fun c => c.2.contains label)).map Prod.fst = [field] := by
  constructor
  · unfold tagStep
    rw [hl, if_neg hne, hf]
    rfl
  · exact tag_label_unique (label, field) (alLookup_mem _ _ _ hf)

set_option maxRecDepth 20000 in
/-- Witness for claim C1 at the translated label Grief, whose group is
field_topics and whose configured translation differs from the source
label. -/
theorem spec_c1_witness :
    (pyStrip ((some "Grief" : Option String).getD "") = "Grief" ∧
     alLookup TAG_LABEL_TO_FIELD "Grief" = some "field_topics") ∧
    tagStep ([], []) { label := some "Grief" } =
      (fieldsAppend [] "field_topics"
        ((alLookup LABEL_TRANSLATION "Grief").getD "Grief"), []) ∧
    (CATEGORY_MAP.filter (fun c => c.2.contains "Grief")).map Prod.fst =
      ["field_topics"] :=
  ⟨⟨by decide, by decide⟩,
   spec_c1 [] [] { label := some "Grief" } "Grief" "field_topics"
     (by decide) (by decide) (by decide)⟩

/-! ## Claim C7 -/

/-- The contribution of one tag to the unmapped_tags list of
classify_article: its stripped label when that label is non-empty, not a key
of the static map, and not in the ignored set. -/
def unmappedOf (t : STag) : Option String :=
  let l := pyStrip (t.label.getD "")
  if l ≠ "" ∧ alLookup TAG_LABEL_TO_FIELD l = none ∧
      IGNORED_TAGS.contains l = false then
    some l
  else none

lemma tagStep_unmapped (ts : List STag) :
    ∀ (fs : List (String × List String)) (u : List String),
      (ts.foldl tagStep (fs, u)).2 = u ++ ts.filterMap unmappedOf := by
  induction ts with
  | nil => intro fs u; simp
  | cons t ts ih =>
    intro fs u
    rw [List.foldl_cons, List.filterMap_cons]
    by_cases h0 : pyStrip (t.label.getD "") = ""
    · have hstep : tagStep (fs, u) t = (fs, u) := by simp [tagStep, h0]
      have hmo : unmappedOf t = none := by simp [unmappedOf, h0]
      rw [hstep, hmo, ih fs u]
    · cases hf : alLookup TAG_LABEL_TO_FIELD (pyStrip (t.label.getD "")) with
      | some f =>
        have hstep : tagStep (fs, u) t =
            (fieldsAppend fs f (translate_label (pyStrip (t.label.getD ""))), u) := by
          simp [tagStep, h0, hf]
        have hmo : unmappedOf t = none := by simp [unmappedOf, h0, hf]
        rw [hstep, hmo, ih _ u]
      | none =>
        by_cases hi : IGNORED_TAGS.contains (pyStrip (t.label.getD "")) = true
        · have him : pyStrip (t.label.getD "") ∈ IGNORED_TAGS := by simpa using hi
          have hstep : tagStep (fs, u) t = (fs, u) := by simp [tagStep, h0, hf, him]
          have hmo : unmappedOf t = none := by simp [unmappedOf, h0, hf, him]
          rw [hstep, hmo, ih fs u]
        · have hnm : pyStrip (t.label.getD "") ∉ IGNORED_TAGS := by simpa using hi
          have hstep : tagStep (fs, u) t = (fs, u ++ [pyStrip (t.label.getD "")]) := by
            simp [tagStep, h0, hf, hnm]
          have hmo : unmappedOf t = some (pyStrip (t.label.getD "")) := by
            simp [unmappedOf, h0, hf, hnm]
          rw [hstep, hmo, ih _ _, List.append_assoc]
          rfl

set_option maxRecDepth 20000 in
/-- Claim C7: classify_article warns for an article exactly when some tag
has a stripped non-empty label that is neither a key of the static
label-to-field map nor a member of the ignored set; the warning is a single
line carrying all such labels of the article in tag order; and a tag whose
stripped label is in the ignored set contributes neither a warning entry nor
any field entry. -/
theorem spec_c7 (a : Article) :
    (classify_article a).2 = (a.tags.getD []).filterMap unmappedOf ∧
    (classifyWarnings a ≠ [] ↔
      ∃ t ∈ a.tags.getD [],
        pyStrip (t.label.getD "") ≠ "" ∧
        alLookup TAG_LABEL_TO_FIELD (pyStrip (t.label.getD "")) = none ∧
        IGNORED_TAGS.contains (pyStrip (t.label.getD "")) = false) ∧
    ∀ (fs : List (String × List String)) (u : List String) (t : STag),
      IGNORED_TAGS.contains (pyStrip (t.label.getD "")) = true →
      tagStep (fs, u) t = (fs, u) := by
  have hu : (classify_article a).2 = (a.tags.getD []).filterMap unmappedOf := by
    unfold classify_article
    rw [tagStep_unmapped]
    rfl
  refine ⟨hu, ?_, ?_⟩
  · have hw : classifyWarnings a ≠ [] ↔ (classify_article a).2 ≠ [] := by
      by_cases h : (classify_article a).2 = [] <;> simp [classifyWarnings, h]
    rw [hw, hu]
    rw [ne_eq, List.filterMap_eq_nil_iff]
    push_neg
    constructor
    · rintro ⟨t, ht, hne⟩
      refine ⟨t, ht, ?_⟩
      by_cases hc : pyStrip (t.label.getD "") ≠ "" ∧
          alLookup TAG_LABEL_TO_FIELD (pyStrip (t.label.getD "")) = none ∧
          IGNORED_TAGS.contains (pyStrip (t.label.getD "")) = false
      · exact hc
      · exact absurd (by unfold unmappedOf; exact if_neg hc) hne
    · rintro ⟨t, ht, hc⟩
      refine ⟨t, ht, ?_⟩
      have : unmappedOf t = some (pyStrip (t.label.getD "")) := by
        unfold unmappedOf; exact if_pos hc
      simp [this]
  · intro fs u t hcontains
    have him : pyStrip (t.label.getD "") ∈ IGNORED_TAGS := by simpa using hcontains
    have h3 : pyStrip (t.label.getD "") = "Audio" ∨
        pyStrip (t.label.getD "") = "Graphic" ∨
        pyStrip (t.label.getD "") = "Video" := by
      simpa [IGNORED_TAGS] using him
    rcases h3 with hl | hl | hl <;> rw [hl] at him <;>
      simp [tagStep, hl, him,
        show alLookup TAG_LABEL_TO_FIELD "Audio" = none from by decide,
        show alLookup TAG_LABEL_TO_FIELD "Graphic" = none from by decide,
        show alLookup TAG_LABEL_TO_FIELD "Video" = none from by decide]

set_option maxRecDepth 20000 in
/-- Witness for claim C7: an Audio tag leaves the classification state
unchanged. -/
theorem spec_c7_witness :
    IGNORED_TAGS.contains
        (pyStrip ((some "Audio" : Option String).getD "")) = true ∧
    tagStep ([], []) { label := some "Audio" } = ([], []) :=
  ⟨by decide,
   (spec_c7 { path := "", title := none, nameKey := none, tags := none,
              feelings := none }).2.2
     [] [] { label := some "Audio" } (by decide)⟩

/-! ## Claim C10 -/

/-- Claim C10: every record emitted by the article loop is generated by one
of the input articles, whose leading-slash-stripped path, looked-up drupal
path and classified fields the record carries, and the record's title is
that same article's title value when truthy, else its name value when
truthy, else the empty string. -/
theorem spec_c10 (pm : List (String × String)) (arts : List Article)
    (r : PageFields) (hr : r ∈ (processArticles pm arts).1) :
    ∃ a, a ∈ arts ∧
      r.sanity_path = lstripSlash a.path ∧
      r.drupal_path = (alLookup pm (lstripSlash a.path)).getD "" ∧
      r.fields = (classify_article a).1 ∧
      r.title = (if (a.title.getD "") ≠ "" then a.title.getD ""
                 else if (a.nameKey.getD "") ≠ "" then a.nameKey.getD "" else "") := by
  induction arts with
  | nil => simp [processArticles] at hr
  | cons a rest ih =>
    by_cases hd : (alLookup pm (lstripSlash a.path)).getD "" = ""
    · have hr2 : r ∈ (processArticles pm rest).1 := by
        simpa [processArticles, hd] using hr
      obtain ⟨b, hb, ht⟩ := ih hr2
      exact ⟨b, List.mem_cons_of_mem _ hb, ht⟩
    · by_cases hf : (classify_article a).1 = []
      · have hr2 : r ∈ (processArticles pm rest).1 := by
          simpa [processArticles, hd, hf] using hr
        obtain ⟨b, hb, ht⟩ := ih hr2
        exact ⟨b, List.mem_cons_of_mem _ hb, ht⟩
      · have hr2 : r =
            { drupal_path := (alLookup pm (lstripSlash a.path)).getD ""
              sanity_path := lstripSlash a.path
              title := if (a.title.getD "") ≠ "" then a.title.getD ""
                       else if (a.nameKey.getD "") ≠ "" then a.nameKey.getD ""
                       else ""
              fields := (classify_article a).1 } ∨
            r ∈ (processArticles pm rest).1 := by
          simpa [processArticles, hd, hf] using hr
        rcases hr2 with hre | hr2
        · exact ⟨a, List.mem_cons_self a rest, by rw [hre], by rw [hre],
            by rw [hre], by rw [hre]⟩
        · obtain ⟨b, hb, ht⟩ := ih hr2
          exact ⟨b, List.mem_cons_of_mem _ hb, ht⟩

set_option maxRecDepth 40000 in
/-- Witness for claim C10: a concrete run whose emitted record falls back to
the article name because the title is present but empty; the generating
article also supplies the record's paths and fields. -/
theorem spec_c10_witness :
    ({ drupal_path := "d", sanity_path := "p", title := "N",
       fields := [("field_topics", ["Grief & loss"])] } : PageFields) ∈
      (processArticles [("p", "d")]
        [{ path := "/p", title := some "", nameKey := some "N",
           tags := some [{ label := some "Grief" }], feelings := none }]).1 ∧
    ∃ a, a ∈ [({ path := "/p", title := some "", nameKey := some "N",
                 tags := some [{ label := some "Grief" }],
                 feelings := none } : Article)] ∧
      ({ drupal_path := "d", sanity_path := "p", title := "N",
         fields := [("field_topics", ["Grief & loss"])] } : PageFields).sanity_path =
        lstripSlash a.path ∧
      ({ drupal_path := "d", sanity_path := "p", title := "N",
         fields := [("field_topics", ["Grief & loss"])] } : PageFields).drupal_path =
        (alLookup [("p", "d")] (lstripSlash a.path)).getD "" ∧
      ({ drupal_path := "d", sanity_path := "p", title := "N",
         fields := [("field_topics", ["Grief & loss"])] } : PageFields).fields =
        (classify_article a).1 ∧
      ({ drupal_path := "d", sanity_path := "p", title := "N",
         fields := [("field_topics", ["Grief & loss"])] } : PageFields).title =
        (if (a.title.getD "") ≠ "" then a.title.getD ""
         else if (a.nameKey.getD "") ≠ "" then a.nameKey.getD "" else "") :=
  ⟨by decide,
   spec_c10 [("p", "d")]
     [{ path := "/p", title := some "", nameKey := some "N",
        tags := some [{ label := some "Grief" }], feelings := none }]
     { drupal_path := "d", sanity_path := "p", title := "N",
       fields := [("field_topics", ["Grief & loss"])] }
     (by decide)⟩

/-! ## Claim C5 -/

set_option maxRecDepth 40000 in
/-- Claim C5 as frozen is false on the code: the article loop tests the
looked-up drupal path for truthiness, so a path-table entry whose
drupal-path cell is empty leaves its article both uncounted in matched and
recorded as unmatched even though the path has an entry in the mapping. -/
theorem spec_c5_counterexample :
    alLookup (load_path_mapping [("foo", "")]) "foo" = some "" ∧
    processArticles (load_path_mapping [("foo", "")])
      [{ path := "foo", title := none, nameKey := none,
         tags := some [{ label := some "Grief" }], feelings := none }] =
      ([], 0, ["foo"]) := by
  constructor <;> decide

/-- Claim C5, amended: an article is counted in the matched total exactly
when looking up its leading-slash-stripped path yields an entry with a
non-empty drupal path (in particular even when classify_article returns an
empty field mapping, in which case the article is dropped from the output);
and an article is recorded in the unmatched-paths list exactly when the
lookup yields no entry or an entry whose drupal-path value is empty. -/
theorem spec_c5_amended (pm : List (String × String)) (arts : List Article) :
    (processArticles pm arts).2.1 =
      arts.countP (fun a => decide ((alLookup pm (lstripSlash a.path)).getD "" ≠ "")) ∧
    (processArticles pm arts).2.2 =
      (arts.filter
        (fun a => decide ((alLookup pm (lstripSlash a.path)).getD "" = ""))).map
        (fun a => lstripSlash a.path) ∧
    (processArticles pm arts).1 =
      (arts.filter
        (fun a => decide ((alLookup pm (lstripSlash a.path)).getD "" ≠ "" ∧
            (classify_article a).1 ≠ []))).map
        (fun a =>
          { drupal_path := (alLookup pm (lstripSlash a.path)).getD ""
            sanity_path := lstripSlash a.path
            title := if (a.title.getD "") ≠ "" then a.title.getD ""
                     else if (a.nameKey.getD "") ≠ "" then a.nameKey.getD ""
                     else ""
            fields := (classify_article a).1 }) := by
  induction arts with
  | nil => exact ⟨rfl, rfl, rfl⟩
  | cons a rest ih =>
    obtain ⟨ih1, ih2, ih3⟩ := ih
    by_cases hd : (alLookup pm (lstripSlash a.path)).getD "" = ""
    · refine ⟨?_, ?_, ?_⟩ <;>
        simp [processArticles, hd, ih1, ih2, ih3, List.countP_cons,
          List.filter_cons]
    · by_cases hf : (classify_article a).1 = []
      · refine ⟨?_, ?_, ?_⟩ <;>
          simp [processArticles, hd, hf, ih1, ih2, ih3, List.countP_cons,
            List.filter_cons]
      · refine ⟨?_, ?_, ?_⟩ <;>
          simp [processArticles, hd, hf, ih1, ih2, ih3, List.countP_cons,
            List.filter_cons]

/-! ## Claim C4 -/

lemma alLookup_cons (p : String × String) (t : List (String × String))
    (k : String) :
    alLookup (p :: t) k = if p.1 = k then some p.2 else alLookup t k := rfl

lemma lookup_map_ne (m : List (String × String)) (k v s : String) (h : s ≠ k) :
    alLookup (m.map fun p => if p.1 = k then (k, v) else p) s = alLookup m s := by
  induction m with
  | nil => rfl
  | cons p t ih =>
    by_cases hp : p.1 = k
    · have h1 : ¬(k = s) := fun he => h he.symm
      have h2 : ¬(p.1 = s) := by rw [hp]; exact h1
      rw [List.map_cons, if_pos hp, alLookup_cons, alLookup_cons]
      show (if k = s then some v else _) = _
      rw [if_neg h1, if_neg h2]
      exact ih
    · rw [List.map_cons, if_neg hp, alLookup_cons, alLookup_cons]
      by_cases hs : p.1 = s
      · rw [if_pos hs, if_pos hs]
      · rw [if_neg hs, if_neg hs]
        exact ih

lemma lookup_map_eq (m : List (String × String)) (k v : String)
    (h : m.any (fun p => p.1 = k) = true) :
    alLookup (m.map fun p => if p.1 = k then (k, v) else p) k = some v := by
  induction m with
  | nil => simp at h
  | cons p t ih =>
    by_cases hp : p.1 = k
    · simp [alLookup, if_pos hp]
    · have ht : t.any (fun p => p.1 = k) = true := by
        simpa [List.any_cons, hp] using h
      simpa [alLookup, if_neg hp, hp] using ih ht

lemma lookup_append_one (m : List (String × String)) (k v s : String) :
    alLookup (m ++ [(k, v)]) s =
      match alLookup m s with
      | some w => some w
      | none => if k = s then some v else none := by
  induction m with
  | nil => by_cases hk : k = s <;> simp [alLookup, hk]
  | cons p t ih =>
    by_cases hs : p.1 = s
    · simp [alLookup, hs]
    · simpa [alLookup, hs] using ih

lemma any_false_lookup_none (m : List (String × String)) (k : String)
    (h : m.any (fun p => p.1 = k) = false) : alLookup m k = none := by
  induction m with
  | nil => rfl
  | cons p t ih =>
    simp only [List.any_cons, Bool.or_eq_false_iff,
      decide_eq_false_iff_not] at h
    rw [alLookup, if_neg h.1]
    exact ih h.2

lemma alLookup_dictInsert (m : List (String × String)) (k v s : String) :
    alLookup (dictInsert m k v) s = if s = k then some v else alLookup m s := by
  cases hany : m.any (fun p => p.1 = k) with
  | true =>
    unfold dictInsert
    rw [if_pos hany]
    by_cases hs : s = k
    · subst hs; rw [if_pos rfl]; exact lookup_map_eq m s v hany
    · rw [if_neg hs]; exact lookup_map_ne m k v s hs
  | false =>
    unfold dictInsert
    rw [if_neg (by simp [hany]), lookup_append_one]
    by_cases hs : s = k
    · subst hs
      rw [any_false_lookup_none m s hany, if_pos rfl]
    · rw [if_neg hs]
      cases hm : alLookup m s with
      | some w => rfl
      | none => exact if_neg (fun he => hs he.symm)

lemma load_fold_keys (rows : List (String × String)) (s : String) :
    ∀ m : List (String × String),
      (∃ v, alLookup
          (rows.foldl (fun m r =>
            if startswith (pyStrip r.1) "http" then m
            else dictInsert m (pyStrip r.1) (pyStrip r.2)) m) s = some v) ↔
        (∃ v, alLookup m s = some v) ∨
          ∃ r, r ∈ rows ∧ pyStrip r.1 = s ∧
            startswith (pyStrip r.1) "http" = false := by
  induction rows with
  | nil => intro m; simp
  | cons r t ih =>
    intro m
    rw [List.foldl_cons]
    by_cases hh : startswith (pyStrip r.1) "http" = true
    · rw [if_pos hh, ih]
      constructor
      · rintro (hm | ⟨r2, h2, h3, h4⟩)
        · exact Or.inl hm
        · exact Or.inr ⟨r2, List.mem_cons_of_mem _ h2, h3, h4⟩
      · rintro (hm | ⟨r2, h2, h3, h4⟩)
        · exact Or.inl hm
        · rcases List.mem_cons.mp h2 with he | h2
          · subst he; rw [hh] at h4; exact absurd h4 (by simp)
          · exact Or.inr ⟨r2, h2, h3, h4⟩
    · rw [if_neg hh, ih]
      have hins : (∃ v, alLookup (dictInsert m (pyStrip r.1) (pyStrip r.2)) s =
          some v) ↔ s = pyStrip r.1 ∨ ∃ v, alLookup m s = some v := by
        simp only [alLookup_dictInsert]
        by_cases hs : s = pyStrip r.1 <;> simp [hs]
      rw [hins]
      constructor
      · rintro ((hs | hm) | ⟨r2, h2, h3, h4⟩)
        · exact Or.inr ⟨r, List.mem_cons_self r t, hs.symm, by simpa using hh⟩
        · exact Or.inl hm
        · exact Or.inr ⟨r2, List.mem_cons_of_mem _ h2, h3, h4⟩
      · rintro (hm | ⟨r2, h2, h3, h4⟩)
        · exact Or.inl (Or.inr hm)
        · rcases List.mem_cons.mp h2 with he | h2
          · subst he; exact Or.inl (Or.inl h3.symm)
          · exact Or.inr ⟨r2, h2, h3, h4⟩

/-- Claim C4 as frozen is false on the code: load_path_mapping drops every
row whose trimmed sanity path starts with http, which also excludes
relative-path entries such as httpx that are not absolute URLs (the
absolute-URL test, per the scheme check normalize_url uses, is spelled out
by isAbsoluteUrlSpec). -/
theorem spec_c4_counterexample :
    load_path_mapping [("httpx", "bar")] = [] ∧
    isAbsoluteUrlSpec "httpx" = false := by
  constructor <;> decide

/-- Claim C4, amended: load_path_mapping includes an entry for a key exactly
when some row's trimmed sanity path equals the key and does not start with
http; so exactly the rows whose trimmed sanity path starts with http are
excluded, which covers every absolute URL but also any relative entry
beginning with http. -/
theorem spec_c4_amended (rows : List (String × String)) (s : String) :
    (∃ v, alLookup (load_path_mapping rows) s = some v) ↔
      ∃ r, r ∈ rows ∧ pyStrip r.1 = s ∧
        startswith (pyStrip r.1) "http" = false := by
  have heq : load_path_mapping rows =
      rows.foldl (fun m r =>
        if startswith (pyStrip r.1) "http" then m
        else dictInsert m (pyStrip r.1) (pyStrip r.2)) [] := rfl
  rw [heq, load_fold_keys rows s []]
  simp [alLookup]

/-! ## Claim C2 -/

lemma padTo_of_le (row : List String) (n : Nat) (h : n ≤ row.length) :
    padTo row n = row := by
  simp [padTo, Nat.sub_eq_zero_of_le h]

/-- Fetch oracle for the C2 counterexample; never consulted because the row
is skipped. -/
def c2Fetch : FetchOracle := fun _ => Except.ok []

/-- Claim C2 as frozen is false on the code: rows are padded with empty
cells up to the node-id and edit-link column indices before the
skip-existing check, so when the edit-link column is appended to the header,
a skipped row gains an empty cell and is not byte-identical to the input
row. -/
theorem spec_c2_counterexample :
    (resolverRun { baseUrl := "b", skipExisting := true } c2Fetch
        [["sanity-path", "drupal-path", "node-id"], ["foo", "bar", "42"]]).map
        Prod.fst =
      some [["sanity-path", "drupal-path", "node-id", "edit-link"],
            ["foo", "bar", "42", ""]] ∧
    (["foo", "bar", "42", ""] : List String) ≠ ["foo", "bar", "42"] := by
  constructor <;> decide

/-- Claim C2, amended: with skip-existing set and a non-empty trimmed
node-id cell, the row written to the output table is the input row padded
with empty cells up to the node-id and edit-link column indices; in
particular it is identical to the input row whenever the row already spans
both columns (as when both columns already exist in the header and the row
is full width). -/
theorem spec_c2_amended (args : Args) (ft : FetchOracle) (nIdx eIdx : Nat)
    (row : List String) (hskip : args.skipExisting = true)
    (hex : pyStrip ((padTo row (max nIdx eIdx + 1)).getD nIdx "") ≠ "") :
    (processRow args ft nIdx eIdx row).1 = padTo row (max nIdx eIdx + 1) ∧
    (max nIdx eIdx + 1 ≤ row.length →
      (processRow args ft nIdx eIdx row).1 = row) := by
  have h1 : (processRow args ft nIdx eIdx row).1 =
      padTo row (max nIdx eIdx + 1) := by
    unfold processRow
    rw [if_pos ⟨hskip, hex⟩]
  exact ⟨h1, fun hle => by rw [h1, padTo_of_le row _ hle]⟩

/-- Witness for claim C2 at a full-width row whose node-id cell is
non-empty. -/
theorem spec_c2_witness :
    (({ baseUrl := "b", skipExisting := true } : Args).skipExisting = true ∧
     pyStrip ((padTo ["foo", "bar", "42", ""] (max 2 3 + 1)).getD 2 "") ≠ "") ∧
    (processRow { baseUrl := "b", skipExisting := true } c2Fetch 2 3
        ["foo", "bar", "42", ""]).1 = ["foo", "bar", "42", ""] :=
  ⟨⟨rfl, by decide⟩,
   (spec_c2_amended { baseUrl := "b", skipExisting := true } c2Fetch 2 3
      ["foo", "bar", "42", ""] rfl (by decide)).2 (by decide)⟩

/-! ## Claim C6 -/

/-- Claim C6: a transport failure on a row sets both the node-id and the
edit-link cells to the empty string, logs the error with the row's path
context, and the batch always completes with one output row and one
progress line per input row, so no per-row failure aborts the run. -/
theorem spec_c6 (args : Args) (ft : FetchOracle) (nIdx eIdx : Nat)
    (row : List String) (exc : String)
    (hskip : ¬(args.skipExisting = true ∧
        pyStrip ((padTo row (max nIdx eIdx + 1)).getD nIdx "") ≠ ""))
    (hpath : pyStrip ((padTo row (max nIdx eIdx + 1)).getD 0 "") ≠ "")
    (herr : ft (normalize_url args.baseUrl
        (pyStrip ((padTo row (max nIdx eIdx + 1)).getD 0 ""))) =
      Except.error exc) :
    (processRow args ft nIdx eIdx row).1 =
      ((padTo row (max nIdx eIdx + 1)).set nIdx "").set eIdx "" ∧
    (processRow args ft nIdx eIdx row).2 =
      pyStrip ((padTo row (max nIdx eIdx + 1)).getD 0 "") ++ " -> error: " ++ exc ∧
    ∀ (header : List String) (data : List (List String)),
      ∃ out lines, resolverRun args ft (header :: data) = some (out, lines) ∧
        out.length = data.length + 1 ∧ lines.length = data.length := by
  have hrow : processRow args ft nIdx eIdx row =
      (((padTo row (max nIdx eIdx + 1)).set nIdx "").set eIdx "",
       pyStrip ((padTo row (max nIdx eIdx + 1)).getD 0 "") ++ " -> error: " ++ exc) := by
    unfold processRow
    rw [if_neg hskip, if_neg (by simpa using hpath), herr]
  refine ⟨by rw [hrow], by rw [hrow], ?_⟩
  intro header data
  refine ⟨_, _, rfl, by simp, by simp⟩

/-- Fetch oracle for the C6 witness: every fetch fails with a transport
error. -/
def c6Fetch : FetchOracle := fun _ => Except.error "boom"

/-- Witness for claim C6 at a concrete failing row. -/
theorem spec_c6_witness :
    (¬(({ baseUrl := "b", skipExisting := false } : Args).skipExisting = true ∧
        pyStrip ((padTo ["x"] (max 1 2 + 1)).getD 1 "") ≠ "") ∧
     pyStrip ((padTo ["x"] (max 1 2 + 1)).getD 0 "") ≠ "") ∧
    (processRow { baseUrl := "b", skipExisting := false } c6Fetch 1 2 ["x"]).1 =
      ((padTo ["x"] (max 1 2 + 1)).set 1 "").set 2 "" ∧
    (processRow { baseUrl := "b", skipExisting := false } c6Fetch 1 2 ["x"]).2 =
      pyStrip ((padTo ["x"] (max 1 2 + 1)).getD 0 "") ++ " -> error: " ++ "boom" :=
  ⟨⟨by decide, by decide⟩,
   (spec_c6 { baseUrl := "b", skipExisting := false } c6Fetch 1 2 ["x"] "boom"
      (by decide) (by decide) rfl).1,
   (spec_c6 { baseUrl := "b", skipExisting := false } c6Fetch 1 2 ["x"] "boom"
      (by decide) (by decide) rfl).2.1⟩

/-! ## Claim C8: header and index lemmas -/

lemma idx_lt (l : List String) (k : String) :
    ∀ i, indexOfFirst l k = some i → i < l.length := by
  induction l with
  | nil => intro i h; simp [indexOfFirst] at h
  | cons a t ih =>
    intro i h
    by_cases ha : a = k
    · rw [indexOfFirst, if_pos ha] at h
      simp at h
      simp [← h]
    · rw [indexOfFirst, if_neg ha] at h
      cases hi : indexOfFirst t k with
      | none => rw [hi] at h; simp at h
      | some j =>
        rw [hi] at h
        simp at h
        have := ih j hi
        simp [← h]
        omega

lemma idx_get (l : List String) (k : String) :
    ∀ i, indexOfFirst l k = some i → l.getD i "" = k := by
  induction l with
  | nil => intro i h; simp [indexOfFirst] at h
  | cons a t ih =>
    intro i h
    by_cases ha : a = k
    · rw [indexOfFirst, if_pos ha] at h
      simp at h
      rw [← h]
      simpa using ha
    · rw [indexOfFirst, if_neg ha] at h
      cases hi : indexOfFirst t k with
      | none => rw [hi] at h; simp at h
      | some j =>
        rw [hi] at h
        simp at h
        rw [← h]
        simpa using ih j hi

lemma idx_append_some (l l2 : List String) (k : String) :
    ∀ i, indexOfFirst l k = some i → indexOfFirst (l ++ l2) k = some i := by
  induction l with
  | nil => intro i h; simp [indexOfFirst] at h
  | cons a t ih =>
    intro i h
    by_cases ha : a = k
    · rw [indexOfFirst, if_pos ha] at h
      rw [List.cons_append, indexOfFirst, if_pos ha]
      exact h
    · rw [indexOfFirst, if_neg ha] at h
      rw [List.cons_append, indexOfFirst, if_neg ha]
      cases hi : indexOfFirst t k with
      | none => rw [hi] at h; simp at h
      | some j =>
        rw [hi] at h
        rw [ih j hi]
        exact h

lemma idx_append_self (l : List String) (k : String)
    (h : indexOfFirst l k = none) :
    indexOfFirst (l ++ [k]) k = some l.length := by
  induction l with
  | nil => simp [indexOfFirst]
  | cons a t ih =>
    by_cases ha : a = k
    · rw [indexOfFirst, if_pos ha] at h; simp at h
    · rw [indexOfFirst, if_neg ha] at h
      rw [List.cons_append, indexOfFirst, if_neg ha]
      cases hi : indexOfFirst t k with
      | none => rw [ih hi]; simp
      | some j => rw [hi] at h; simp at h

lemma idx_cons_pos (c : String) (t : List String) (k : String) (i : Nat)
    (hc : c ≠ k) (h : indexOfFirst (c :: t) k = some i) : 0 < i := by
  rw [indexOfFirst, if_neg hc] at h
  cases hi : indexOfFirst t k with
  | none => rw [hi] at h; simp at h
  | some j => rw [hi] at h; simp at h; omega

lemma ensureCol_find (h : List String) (k : String) :
    indexOfFirst (ensureCol h k).1 k = some (ensureCol h k).2 := by
  unfold ensureCol
  cases hi : indexOfFirst h k with
  | some i => exact hi
  | none => exact idx_append_self h k hi

lemma ensureCol_cons (c : String) (t : List String) (k : String) :
    ∃ t2, (ensureCol (c :: t) k).1 = c :: t2 := by
  unfold ensureCol
  cases indexOfFirst (c :: t) k with
  | some i => exact ⟨t, rfl⟩
  | none => exact ⟨t ++ [k], by simp⟩

lemma ensureCol_pos (c : String) (t : List String) (k : String) (hc : c ≠ k) :
    0 < (ensureCol (c :: t) k).2 := by
  unfold ensureCol
  cases hi : indexOfFirst (c :: t) k with
  | some i => exact idx_cons_pos c t k i hc hi
  | none => simp

lemma ensureCol_eq_of_found (h : List String) (k : String) (i : Nat)
    (hi : indexOfFirst h k = some i) : ensureCol h k = (h, i) := by
  unfold ensureCol; rw [hi]

lemma ensureCol_eq_of_missing (h : List String) (k : String)
    (hi : indexOfFirst h k = none) : ensureCol h k = (h ++ [k], h.length) := by
  unfold ensureCol; rw [hi]

lemma ensureCols_stable (header h2 : List String) (n e : Nat)
    (heq : ensureCols header = (h2, n, e)) : ensureCols h2 = (h2, n, e) := by
  have hq : ensureCols header =
      ((ensureCol (ensureCol header "node-id").1 "edit-link").1,
       (ensureCol header "node-id").2,
       (ensureCol (ensureCol header "node-id").1 "edit-link").2) := rfl
  rw [hq] at heq
  have hh2 : (ensureCol (ensureCol header "node-id").1 "edit-link").1 = h2 :=
    congrArg Prod.fst heq
  have hn : (ensureCol header "node-id").2 = n :=
    congrArg (fun q => q.2.1) heq
  have he : (ensureCol (ensureCol header "node-id").1 "edit-link").2 = e :=
    congrArg (fun q => q.2.2) heq
  have f1 : indexOfFirst (ensureCol header "node-id").1 "node-id" =
      some (ensureCol header "node-id").2 := ensureCol_find header "node-id"
  have f2 : indexOfFirst h2 "edit-link" = some e := by
    rw [← hh2, ← he]; exact ensureCol_find (ensureCol header "node-id").1 "edit-link"
  have fn : indexOfFirst h2 "node-id" = some n := by
    rw [← hh2, ← hn]
    cases hi : indexOfFirst (ensureCol header "node-id").1 "edit-link" with
    | some j => rw [ensureCol_eq_of_found _ _ j hi]; exact f1
    | none => rw [ensureCol_eq_of_missing _ _ hi]; exact idx_append_some _ _ _ _ f1
  have g1 : ensureCol h2 "node-id" = (h2, n) := ensureCol_eq_of_found _ _ _ fn
  have g2 : ensureCol h2 "edit-link" = (h2, e) := ensureCol_eq_of_found _ _ _ f2
  have hq2 : ensureCols h2 =
      ((ensureCol (ensureCol h2 "node-id").1 "edit-link").1,
       (ensureCol h2 "node-id").2,
       (ensureCol (ensureCol h2 "node-id").1 "edit-link").2) := rfl
  rw [hq2]
  simp [g1, g2]

lemma ensureCols_props (c : String) (t : List String) (h2 : List String)
    (n e : Nat) (heq : ensureCols (c :: t) = (h2, n, e))
    (hc1 : c ≠ "node-id") (hc2 : c ≠ "edit-link") :
    0 < n ∧ 0 < e ∧ n ≠ e := by
  have hq : ensureCols (c :: t) =
      ((ensureCol (ensureCol (c :: t) "node-id").1 "edit-link").1,
       (ensureCol (c :: t) "node-id").2,
       (ensureCol (ensureCol (c :: t) "node-id").1 "edit-link").2) := rfl
  rw [hq] at heq
  have hn : (ensureCol (c :: t) "node-id").2 = n :=
    congrArg (fun q => q.2.1) heq
  have he : (ensureCol (ensureCol (c :: t) "node-id").1 "edit-link").2 = e :=
    congrArg (fun q => q.2.2) heq
  have hpn : 0 < n := by rw [← hn]; exact ensureCol_pos c t "node-id" hc1
  obtain ⟨t1, ht1⟩ := ensureCol_cons c t "node-id"
  have hpe : 0 < e := by
    rw [← he, ht1]; exact ensureCol_pos c t1 "edit-link" hc2
  have f1 : indexOfFirst (ensureCol (c :: t) "node-id").1 "node-id" = some n := by
    rw [← hn]; exact ensureCol_find (c :: t) "node-id"
  refine ⟨hpn, hpe, ?_⟩
  cases hi : indexOfFirst (ensureCol (c :: t) "node-id").1 "edit-link" with
  | some j =>
    have hej : e = j := by
      rw [← he, ensureCol_eq_of_found _ _ j hi]
    have hg1 : (ensureCol (c :: t) "node-id").1.getD j "" = "edit-link" :=
      idx_get _ _ j hi
    have hg2 : (ensureCol (c :: t) "node-id").1.getD n "" = "node-id" :=
      idx_get _ _ n f1
    intro hcon
    rw [hcon, hej, hg1] at hg2
    exact absurd hg2 (by decide)
  | none =>
    have hee : e = (ensureCol (c :: t) "node-id").1.length := by
      rw [← he, ensureCol_eq_of_missing _ _ hi]
    have hlt : n < (ensureCol (c :: t) "node-id").1.length :=
      idx_lt _ _ n f1
    omega

/-! ## Claim C8: row lemmas -/

lemma getD_set_ne (l : List String) (i j : Nat) (v d : String) (h : i ≠ j) :
    (l.set i v).getD j d = l.getD j d := by
  induction l generalizing i j with
  | nil => simp
  | cons a t ih =>
    cases i with
    | zero =>
      cases j with
      | zero => exact absurd rfl h
      | succ j2 => simp [List.getD]
    | succ i2 =>
      cases j with
      | zero => simp [List.getD]
      | succ j2 =>
        have : i2 ≠ j2 := fun hh => h (by rw [hh])
        simpa [List.getD] using ih i2 j2 this

lemma getD_set_self (l : List String) (i : Nat) (v d : String)
    (h : i < l.length) : (l.set i v).getD i d = v := by
  induction l generalizing i with
  | nil => simp at h
  | cons a t ih =>
    cases i with
    | zero => simp [List.getD]
    | succ i2 =>
      have : i2 < t.length := by simpa using h
      simpa [List.getD] using ih i2 this

lemma getD_append_left (l r : List String) (i : Nat) (d : String)
    (h : i < l.length) : (l ++ r).getD i d = l.getD i d := by
  induction l generalizing i with
  | nil => simp at h
  | cons a t ih =>
    cases i with
    | zero => simp [List.getD]
    | succ i2 =>
      have : i2 < t.length := by simpa using h
      simpa [List.getD] using ih i2 this

lemma length_padTo_ge (row : List String) (n : Nat) :
    n ≤ (padTo row n).length := by
  simp [padTo]
  omega

lemma padTo_getD_zero (row : List String) (n : Nat) (hn : 0 < n) :
    (padTo row n).getD 0 "" = row.getD 0 "" := by
  cases row with
  | nil =>
    cases n with
    | zero => simp at hn
    | succ n2 => simp [padTo, List.getD, List.replicate]
  | cons a t =>
    exact getD_append_left (a :: t) _ 0 "" (by simp)

lemma padTo_getD_lt (row : List String) (n i : Nat) (d : String)
    (h : i < row.length) : (padTo row n).getD i d = row.getD i d :=
  getD_append_left row _ i d h

lemma set_set_absorb (p : List String) (n e : Nat) (x y : String) (hne : n ≠ e) :
    ((((p.set n x).set e y).set n x).set e y) = (p.set n x).set e y := by
  have h1 : ((p.set n x).set e y).set n x = ((p.set n x).set n x).set e y :=
    List.set_comm y x (p.set n x) (fun hh => hne hh.symm)
  rw [h1, List.set_set, List.set_set]

lemma articleHit_strip (t : StartTag) (w : String) (h : articleHit t = some w) :
    pyStrip w = w := by
  unfold articleHit at h
  by_cases hn : lowerStr t.name = "article"
  · rw [if_pos hn] at h
    cases hA : attrGet t.attrs "data-history-node-id" with
    | none => rw [hA] at h; simp at h
    | some raw =>
      rw [hA] at h
      by_cases hr : raw = ""
      · simp [hr] at h
      · have h2 : some (pyStrip raw) = some w := by simpa [hr] using h
        obtain rfl : pyStrip raw = w := Option.some_inj.mp h2
        exact pyStrip_idem raw
  · rw [if_neg hn] at h; simp at h

lemma parseTags_strip (ts : List StartTag) (s : String)
    (h : parseTags ts = some s) : pyStrip s = s := by
  induction ts with
  | nil => simp [parseTags] at h
  | cons t ts ih =>
    rw [parseTags_cons] at h
    cases hh : articleHit t with
    | none => rw [hh] at h; exact ih h
    | some w =>
      rw [hh] at h
      have : w = s := Option.some_inj.mp h
      rw [← this]
      exact articleHit_strip t w hh

/-! ## Claim C8: branch equations for processRow -/

lemma processRow_skip (args : Args) (ft : FetchOracle) (n e : Nat)
    (row : List String)
    (h : args.skipExisting = true ∧
      pyStrip ((padTo row (max n e + 1)).getD n "") ≠ "") :
    (processRow args ft n e row).1 = padTo row (max n e + 1) := by
  unfold processRow
  rw [if_pos h]

lemma processRow_blank (args : Args) (ft : FetchOracle) (n e : Nat)
    (row : List String)
    (h1 : ¬(args.skipExisting = true ∧
      pyStrip ((padTo row (max n e + 1)).getD n "") ≠ ""))
    (h2 : pyStrip ((padTo row (max n e + 1)).getD 0 "") = "") :
    (processRow args ft n e row).1 = padTo row (max n e + 1) := by
  unfold processRow
  rw [if_neg h1, if_pos h2]

lemma processRow_error_eq (args : Args) (ft : FetchOracle) (n e : Nat)
    (row : List String) (exc : String)
    (h1 : ¬(args.skipExisting = true ∧
      pyStrip ((padTo row (max n e + 1)).getD n "") ≠ ""))
    (h2 : pyStrip ((padTo row (max n e + 1)).getD 0 "") ≠ "")
    (h3 : ft (normalize_url args.baseUrl
        (pyStrip ((padTo row (max n e + 1)).getD 0 ""))) = Except.error exc) :
    (processRow args ft n e row).1 =
      ((padTo row (max n e + 1)).set n "").set e "" := by
  unfold processRow
  rw [if_neg h1, if_neg (by simpa using h2), h3]

lemma processRow_notfound_eq (args : Args) (ft : FetchOracle) (n e : Nat)
    (row : List String) (tags : List StartTag)
    (h1 : ¬(args.skipExisting = true ∧
      pyStrip ((padTo row (max n e + 1)).getD n "") ≠ ""))
    (h2 : pyStrip ((padTo row (max n e + 1)).getD 0 "") ≠ "")
    (h3 : ft (normalize_url args.baseUrl
        (pyStrip ((padTo row (max n e + 1)).getD 0 ""))) = Except.ok tags)
    (h4 : parseTags tags = none ∨ parseTags tags = some "") :
    (processRow args ft n e row).1 =
      ((padTo row (max n e + 1)).set n "").set e "" := by
  unfold processRow
  rw [if_neg h1, if_neg (by simpa using h2)]
  simp only [h3]
  rcases h4 with h4 | h4 <;> simp [h4]

lemma processRow_found_eq (args : Args) (ft : FetchOracle) (n e : Nat)
    (row : List String) (tags : List StartTag) (nid : String)
    (h1 : ¬(args.skipExisting = true ∧
      pyStrip ((padTo row (max n e + 1)).getD n "") ≠ ""))
    (h2 : pyStrip ((padTo row (max n e + 1)).getD 0 "") ≠ "")
    (h3 : ft (normalize_url args.baseUrl
        (pyStrip ((padTo row (max n e + 1)).getD 0 ""))) = Except.ok tags)
    (h4 : parseTags tags = some nid) (h5 : nid ≠ "") :
    (processRow args ft n e row).1 =
      ((padTo row (max n e + 1)).set n nid).set e
        (editLink args.baseUrl nid) := by
  unfold processRow
  rw [if_neg h1, if_neg (by simpa using h2)]
  simp only [h3, h4]
  rw [if_pos h5]

lemma processRow_idem (args : Args) (ft : FetchOracle) (n e : Nat)
    (hn : 0 < n) (he : 0 < e) (hne : n ≠ e) (row : List String) :
    (processRow args ft n e (processRow args ft n e row).1).1 =
      (processRow args ft n e row).1 := by
  have hn0 : n ≠ 0 := by omega
  have he0 : e ≠ 0 := by omega
  have hen : e ≠ n := fun hh => hne hh.symm
  have hplen : max n e + 1 ≤ (padTo row (max n e + 1)).length :=
    length_padTo_ge row _
  have hnlt : n < (padTo row (max n e + 1)).length := by
    have : n < max n e + 1 := by omega
    omega
  have hpp : padTo (padTo row (max n e + 1)) (max n e + 1) =
      padTo row (max n e + 1) := padTo_of_le _ _ hplen
  by_cases hskip : args.skipExisting = true ∧
      pyStrip ((padTo row (max n e + 1)).getD n "") ≠ ""
  · rw [processRow_skip args ft n e row hskip]
    rw [processRow_skip args ft n e (padTo row (max n e + 1))
      (by rw [hpp]; exact hskip), hpp]
  · by_cases hblank : pyStrip ((padTo row (max n e + 1)).getD 0 "") = ""
    · rw [processRow_blank args ft n e row hskip hblank]
      rw [processRow_blank args ft n e (padTo row (max n e + 1))
        (by rw [hpp]; exact hskip) (by rw [hpp]; exact hblank), hpp]
    · cases hft : ft (normalize_url args.baseUrl
          (pyStrip ((padTo row (max n e + 1)).getD 0 ""))) with
      | error exc =>
        rw [processRow_error_eq args ft n e row exc hskip hblank hft]
        have hSlen : max n e + 1 ≤
            ((((padTo row (max n e + 1)).set n "").set e "")).length := by
          simpa [List.length_set] using hplen
        have hSpad : padTo (((padTo row (max n e + 1)).set n "").set e "")
            (max n e + 1) = ((padTo row (max n e + 1)).set n "").set e "" :=
          padTo_of_le _ _ hSlen
        have hS0 : ((((padTo row (max n e + 1)).set n "").set e "")).getD 0 "" =
            (padTo row (max n e + 1)).getD 0 "" := by
          rw [getD_set_ne _ e 0 "" "" he0, getD_set_ne _ n 0 "" "" hn0]
        have hSn : ((((padTo row (max n e + 1)).set n "").set e "")).getD n "" =
            "" := by
          rw [getD_set_ne _ e n "" "" hen, getD_set_self _ n "" "" hnlt]
        have hskip2 : ¬(args.skipExisting = true ∧
            pyStrip ((padTo (((padTo row (max n e + 1)).set n "").set e "")
              (max n e + 1)).getD n "") ≠ "") := by
          rw [hSpad, hSn]
          rintro ⟨_, hx⟩
          exact hx rfl
        have hpath2 : pyStrip ((padTo
            (((padTo row (max n e + 1)).set n "").set e "")
            (max n e + 1)).getD 0 "") ≠ "" := by
          rw [hSpad, hS0]; exact hblank
        have hft2 : ft (normalize_url args.baseUrl
            (pyStrip ((padTo (((padTo row (max n e + 1)).set n "").set e "")
              (max n e + 1)).getD 0 ""))) = Except.error exc := by
          rw [hSpad, hS0]; exact hft
        rw [processRow_error_eq args ft n e
          (((padTo row (max n e + 1)).set n "").set e "") exc hskip2 hpath2 hft2,
          hSpad]
        exact set_set_absorb (padTo row (max n e + 1)) n e "" "" hne
      | ok tags =>
        have hSlen : max n e + 1 ≤
            ((((padTo row (max n e + 1)).set n "").set e "")).length := by
          simpa [List.length_set] using hplen
        have hSpad : padTo (((padTo row (max n e + 1)).set n "").set e "")
            (max n e + 1) = ((padTo row (max n e + 1)).set n "").set e "" :=
          padTo_of_le _ _ hSlen
        have hS0 : ((((padTo row (max n e + 1)).set n "").set e "")).getD 0 "" =
            (padTo row (max n e + 1)).getD 0 "" := by
          rw [getD_set_ne _ e 0 "" "" he0, getD_set_ne _ n 0 "" "" hn0]
        have hSn : ((((padTo row (max n e + 1)).set n "").set e "")).getD n "" =
            "" := by
          rw [getD_set_ne _ e n "" "" hen, getD_set_self _ n "" "" hnlt]
        have hskip2 : ¬(args.skipExisting = true ∧
            pyStrip ((padTo (((padTo row (max n e + 1)).set n "").set e "")
              (max n e + 1)).getD n "") ≠ "") := by
          rw [hSpad, hSn]
          rintro ⟨_, hx⟩
          exact hx rfl
        have hpath2 : pyStrip ((padTo
            (((padTo row (max n e + 1)).set n "").set e "")
            (max n e + 1)).getD 0 "") ≠ "" := by
          rw [hSpad, hS0]; exact hblank
        have hft2 : ft (normalize_url args.baseUrl
            (pyStrip ((padTo (((padTo row (max n e + 1)).set n "").set e "")
              (max n e + 1)).getD 0 ""))) = Except.ok tags := by
          rw [hSpad, hS0]; exact hft
        cases hpt : parseTags tags with
        | none =>
          rw [processRow_notfound_eq args ft n e row tags hskip hblank hft
            (Or.inl hpt)]
          rw [processRow_notfound_eq args ft n e
            (((padTo row (max n e + 1)).set n "").set e "") tags hskip2 hpath2
            hft2 (Or.inl hpt), hSpad]
          exact set_set_absorb (padTo row (max n e + 1)) n e "" "" hne
        | some nid =>
          by_cases hnid : nid = ""
          · subst hnid
            rw [processRow_notfound_eq args ft n e row tags hskip hblank hft
              (Or.inr hpt)]
            rw [processRow_notfound_eq args ft n e
              (((padTo row (max n e + 1)).set n "").set e "") tags hskip2 hpath2
              hft2 (Or.inr hpt), hSpad]
            exact set_set_absorb (padTo row (max n e + 1)) n e "" "" hne
          · rw [processRow_found_eq args ft n e row tags nid hskip hblank hft
              hpt hnid]
            have hTlen : max n e + 1 ≤
                (((padTo row (max n e + 1)).set n nid).set e
                  (editLink args.baseUrl nid)).length := by
              simpa [List.length_set] using hplen
            have hTpad : padTo (((padTo row (max n e + 1)).set n nid).set e
                (editLink args.baseUrl nid)) (max n e + 1) =
                ((padTo row (max n e + 1)).set n nid).set e
                  (editLink args.baseUrl nid) := padTo_of_le _ _ hTlen
            have hT0 : (((padTo row (max n e + 1)).set n nid).set e
                (editLink args.baseUrl nid)).getD 0 "" =
                (padTo row (max n e + 1)).getD 0 "" := by
              rw [getD_set_ne _ e 0 _ "" he0, getD_set_ne _ n 0 _ "" hn0]
            have hTn : (((padTo row (max n e + 1)).set n nid).set e
                (editLink args.baseUrl nid)).getD n "" = nid := by
              rw [getD_set_ne _ e n _ "" hen, getD_set_self _ n nid "" hnlt]
            have hstripnid : pyStrip nid = nid := parseTags_strip tags nid hpt
            by_cases hsk2 : args.skipExisting = true
            · have hskipT : args.skipExisting = true ∧
                  pyStrip ((padTo (((padTo row (max n e + 1)).set n nid).set e
                    (editLink args.baseUrl nid)) (max n e + 1)).getD n "") ≠ "" := by
                rw [hTpad, hTn, hstripnid]
                exact ⟨hsk2, hnid⟩
              rw [processRow_skip args ft n e _ hskipT, hTpad]
            · have hskipT : ¬(args.skipExisting = true ∧
                  pyStrip ((padTo (((padTo row (max n e + 1)).set n nid).set e
                    (editLink args.baseUrl nid)) (max n e + 1)).getD n "") ≠ "") :=
                fun hx => hsk2 hx.1
              have hpathT : pyStrip ((padTo
                  (((padTo row (max n e + 1)).set n nid).set e
                    (editLink args.baseUrl nid)) (max n e + 1)).getD 0 "") ≠ "" := by
                rw [hTpad, hT0]; exact hblank
              have hftT : ft (normalize_url args.baseUrl
                  (pyStrip ((padTo (((padTo row (max n e + 1)).set n nid).set e
                    (editLink args.baseUrl nid)) (max n e + 1)).getD 0 "")))
                  = Except.ok tags := by
                rw [hTpad, hT0]; exact hft
              rw [processRow_found_eq args ft n e
                (((padTo row (max n e + 1)).set n nid).set e
                  (editLink args.baseUrl nid)) tags nid hskipT hpathT hftT hpt
                hnid, hTpad]
              exact set_set_absorb (padTo row (max n e + 1)) n e nid
                (editLink args.baseUrl nid) hne

lemma map_processRow_idem (args : Args) (ft : FetchOracle) (n e : Nat)
    (hpn : 0 < n) (hpe : 0 < e) (hne : n ≠ e) (data : List (List String)) :
    (data.map (fun r => (processRow args ft n e r).1)).map
      (fun r => (processRow args ft n e r).1) =
      data.map (fun r => (processRow args ft n e r).1) := by
  induction data with
  | nil => rfl
  | cons r rest ih =>
    simp only [List.map_cons, List.cons.injEq]
    exact ⟨processRow_idem args ft n e hpn hpe hne r, ih⟩

lemma resolverRun_cons (args : Args) (ft : FetchOracle) (header : List String)
    (data : List (List String)) (h2 : List String) (n e : Nat)
    (hE : ensureCols header = (h2, n, e)) :
    (resolverRun args ft (header :: data)).map Prod.fst =
      some (h2 :: data.map (fun r => (processRow args ft n e r).1)) := by
  simp [resolverRun, hE]

/-- Claim C8, amended: for a table whose first header cell is neither the
node-id nor the edit-link column name, running the resolver again over the
output of a first run, with the same fetch responses and options, reproduces
that output unchanged.  The restriction is forced: when the first column is
itself the node-id or edit-link column, the first run overwrites the cell
that the second run reads as the source path. -/
theorem spec_c8_amended (args : Args) (ft : FetchOracle) (c : String)
    (hrest : List String) (data : List (List String)) (t : List (List String))
    (hc1 : c ≠ "node-id") (hc2 : c ≠ "edit-link")
    (hrun : (resolverRun args ft ((c :: hrest) :: data)).map Prod.fst = some t) :
    (resolverRun args ft t).map Prod.fst = some t := by
  rcases hE : ensureCols (c :: hrest) with ⟨h2, ne2⟩
  rcases ne2 with ⟨n, e⟩
  obtain ⟨hpn, hpe, hne⟩ := ensureCols_props c hrest h2 n e hE hc1 hc2
  have hstable := ensureCols_stable (c :: hrest) h2 n e hE
  have ht1 := resolverRun_cons args ft (c :: hrest) data h2 n e hE
  rw [ht1] at hrun
  have ht : t = h2 :: data.map (fun r => (processRow args ft n e r).1) :=
    (Option.some_inj.mp hrun).symm
  have ht2 := resolverRun_cons args ft h2
    (data.map (fun r => (processRow args ft n e r).1)) h2 n e hstable
  rw [ht, ht2, map_processRow_idem args ft n e hpn hpe hne data]

/-- Fetch oracle for the C8 counterexample and witness: three pages with
distinct node ids. -/
def c8Fetch : FetchOracle := fun u =>
  if u = "b/x" then
    Except.ok [{ name := "article", attrs := [("data-history-node-id", some "42")] }]
  else if u = "b/42" then
    Except.ok [{ name := "article", attrs := [("data-history-node-id", some "99")] }]
  else Except.ok []

/-- Claim C8 as frozen is false on the code: when the table's first header
cell is the node-id column name, the first run writes the fetched id into
the cell the next run reads as the source path, so a second run with the
same responses fetches a different URL and produces a different table. -/
theorem spec_c8_counterexample :
    (resolverRun { baseUrl := "b", skipExisting := false } c8Fetch
        [["node-id"], ["x"]]).map Prod.fst =
      some [["node-id", "edit-link"], ["42", "b/node/42/edit"]] ∧
    (resolverRun { baseUrl := "b", skipExisting := false } c8Fetch
        [["node-id", "edit-link"], ["42", "b/node/42/edit"]]).map Prod.fst =
      some [["node-id", "edit-link"], ["99", "b/node/99/edit"]] ∧
    ([["node-id", "edit-link"], ["99", "b/node/99/edit"]] :
        List (List String)) ≠
      [["node-id", "edit-link"], ["42", "b/node/42/edit"]] := by
  refine ⟨by decide, by decide, by decide⟩

/-- Witness for claim C8 on a table whose first column is the source path. -/
theorem spec_c8_witness :
    (("p" : String) ≠ "node-id" ∧ ("p" : String) ≠ "edit-link" ∧
     (resolverRun { baseUrl := "b", skipExisting := false } c8Fetch
        [["p"], ["x"]]).map Prod.fst =
       some [["p", "node-id", "edit-link"], ["x", "42", "b/node/42/edit"]]) ∧
    (resolverRun { baseUrl := "b", skipExisting := false } c8Fetch
        [["p", "node-id", "edit-link"], ["x", "42", "b/node/42/edit"]]).map
        Prod.fst =
      some [["p", "node-id", "edit-link"], ["x", "42", "b/node/42/edit"]] :=
  ⟨⟨by decide, by decide, by decide⟩,
   spec_c8_amended { baseUrl := "b", skipExisting := false } c8Fetch "p" []
     [["x"]] [["p", "node-id", "edit-link"], ["x", "42", "b/node/42/edit"]]
     (by decide) (by decide) (by decide)⟩
